import Mathlib

/-!
Verification of the run-monitoring client (Autodistil-KG pipeline client).

Shallow embedding of the client's reconciliation and transport logic:

* `stagesFromWsEvents` — the Mode A live reduction
  (src/components/MonitorProgress.tsx, `stagesFromWsEvents`);
* `pollStep` — the Mode B snapshot-polling interval body
  (src/components/MonitorProgress.tsx, `MonitorProgress`);
* `wsStep` / `runSessionFrom` — the live-channel session machine
  (src/api/client.ts, `runPipelineViaWebSocket`);
* `getRunStatusErrorMsg` — the non-success handling of `getRunStatus`
  (src/api/client.ts);
* `handleRunResponse` — the request/response submission outcome
  (src/components/ConfigurePipeline.tsx, `handleRun`).

JavaScript machine arithmetic notes: the only arithmetic is
`Math.round((c / t) * 100)` on small non-negative integers; it is modelled
exactly over the rationals as `⌊(200c + t) / (2t)⌋` (round half up), and the
division-by-zero case (which yields `NaN` in JavaScript) is modelled with
`Option Nat` where it can occur.  Wall-clock timestamps (`new Date()`)
are modelled by an explicit clock argument giving the timestamp string read
at each loop iteration.
-/

/-- Stage status of one `StageDetail` entry. -/
inductive StageStatus where
  | pending
  | running
  | completed
  | failed
deriving DecidableEq, Repr

/-- Per-stage derived state (interface `StageDetail` in MonitorProgress.tsx). -/
structure StageDetail where
  name : String
  status : StageStatus
  progress : Nat
  error : Option String := none
deriving DecidableEq, Repr

/-- One entry of `RunResultResponse.results` (client.ts). -/
structure StageResult where
  success : Bool
  error : Option String := none
deriving DecidableEq, Repr

/-- Live-channel lifecycle event (`WsEvent` in client.ts).  `pipeline_start`
carries `Option` because the fold defends against a missing field
(`ev.stages ?? runOrder`); `done` keeps the `results` payload forwarded to
`onDone`.  The unused `metadata`/`context` records are omitted: no modelled
code reads them. -/
inductive WsEvent where
  | run_start (run_id : String)
  | pipeline_start (stages : Option (List String))
  | stage_start (stage : String)
  | stage_end (stage : String) (success : Bool) (error : Option String)
  | log (level : String) (logger : String) (message : String)
  | done (success : Bool) (results : Option (List StageResult))
  | error (message : String)
deriving DecidableEq, Repr

/-- `STAGE_LABELS` lookup (types/config.ts): `STAGE_LABELS[id]`. -/
def STAGE_LABELS : String → Option String
  | "graph_traverser" => some "Graph Traverser"
  | "chatml_converter" => some "ChatML Converter"
  | "finetuner" => some "FineTuner"
  | "evaluator" => some "Evaluator"
  | _ => none

/-- `STAGE_LABELS[id] ?? id`. -/
def stageLabel (id : String) : String := (STAGE_LABELS id).getD id

/-- `xs.join(sep)` on a list of strings. -/
def joinSep (sep : String) : List String → String
  | [] => ""
  | [x] => x
  | x :: xs => x ++ sep ++ joinSep sep xs

/-- Replace the element at index `i` (no-op when out of range), as the
in-place `stageDetails[idx] = { ...stageDetails[idx], ... }` assignment. -/
def updateAt {α : Type} (l : List α) (i : Nat) (f : α → α) : List α :=
  match l, i with
  | [], _ => []
  | x :: xs, 0 => f x :: xs
  | x :: xs, n + 1 => x :: updateAt xs n f

/-- State threaded through the loop body of `stagesFromWsEvents`:
the local variables `orderedStages`, `stageDetails`, `completedCount`, `logs`. -/
structure FoldState where
  orderedStages : List String
  stageDetails : List StageDetail
  completedCount : Nat
  logs : List String
deriving DecidableEq, Repr

/-- Initial `StageDetail` list built from a stage order
(`order.map((id) => ({ name: STAGE_LABELS[id] ?? id, status: 'pending', progress: 0 }))`). -/
def initDetails (order : List String) : List StageDetail :=
  order.map (fun id => { name := stageLabel id, status := .pending, progress := 0 })

/-- Initial loop state of `stagesFromWsEvents`. -/
def initFoldState (runOrder : List String) : FoldState :=
  { orderedStages := runOrder
    stageDetails := initDetails runOrder
    completedCount := 0
    logs := [] }

/-- `ev.error ? ` — ${ev.error}` : ''` — the error suffix of a `stage_end`
log line; the empty string is falsy in JavaScript. -/
def errSuffix : Option String → String
  | some e => if e = "" then "" else " — " ++ e
  | none => ""

/-- One iteration of the `for (const ev of events)` loop of
`stagesFromWsEvents` (MonitorProgress.tsx:21-80).  `ts` is the value of
`new Date().toISOString().slice(11, 19)` read at this iteration. -/
def applyEvent (runOrder : List String) (ts : String) (s : FoldState) :
    WsEvent → FoldState
  | .run_start _ =>
      { s with logs := s.logs ++
          ["[" ++ ts ++ "] [INFO] Run started (live updates via WebSocket)"] }
  | .pipeline_start stages =>
      let os := stages.getD runOrder
      { s with
        orderedStages := os
        stageDetails := initDetails os
        logs := s.logs ++
          ["[" ++ ts ++ "] [INFO] Pipeline started: " ++ joinSep " → " os] }
  | .stage_start stage =>
      let idx := s.orderedStages.indexOf stage
      let s' :=
        if idx < s.orderedStages.length ∧ idx < s.stageDetails.length then
          { s with stageDetails := updateAt s.stageDetails idx (fun d =>
              { d with name := stageLabel stage, status := .running, progress := 0 }) }
        else s
      { s' with logs := s'.logs ++
          ["[" ++ ts ++ "] [INFO] Stage started: " ++ stage] }
  | .stage_end stage success err =>
      let idx := s.orderedStages.indexOf stage
      let s' :=
        if idx < s.orderedStages.length ∧ idx < s.stageDetails.length then
          { s with
            stageDetails := updateAt s.stageDetails idx (fun d =>
              { d with name := stageLabel stage
                       status := if success then .completed else .failed
                       progress := if success then 100 else 0
                       error := err })
            completedCount := if success then s.completedCount + 1 else s.completedCount }
        else s
      let level := if success then "INFO" else "ERROR"
      let verb := if success then "completed" else "failed"
      { s' with logs := s'.logs ++
          ["[" ++ ts ++ "] [" ++ level ++ "] Stage " ++ verb ++ ": " ++ stage ++
            errSuffix err] }
  | .log level _ message =>
      { s with logs := s.logs ++ ["[" ++ ts ++ "] [" ++ level ++ "] " ++ message] }
  | .done success _ =>
      let level := if success then "INFO" else "ERROR"
      let text := if success then "completed successfully." else "failed."
      { s with logs := s.logs ++
          ["[" ++ ts ++ "] [" ++ level ++ "] Pipeline " ++ text] }
  | .error message =>
      { s with logs := s.logs ++ ["[" ++ ts ++ "] [ERROR] " ++ message] }

/-- The event loop of `stagesFromWsEvents`; `i` indexes the iteration so the
clock can give each iteration its own timestamp reading. -/
def foldEventsAux (runOrder : List String) (clock : Nat → String) :
    Nat → FoldState → List WsEvent → FoldState
  | _, s, [] => s
  | i, s, ev :: rest =>
      foldEventsAux runOrder clock (i + 1) (applyEvent runOrder (clock i) s ev) rest

/-- Loop state after processing the whole event list. -/
def foldEvents (events : List WsEvent) (runOrder : List String)
    (clock : Nat → String) : FoldState :=
  foldEventsAux runOrder clock 0 (initFoldState runOrder) events

/-- The aggregate the UI renders (return shape of `stagesFromWsEvents`). -/
structure ReconciledView where
  stages : List StageDetail
  overallProgress : Nat
  logs : List String
deriving DecidableEq, Repr

/-- `Math.round((num / den) * 100)` for non-negative integers and `den > 0`,
computed exactly: round half up of the rational `100·num/den`. -/
def jsRound (num den : Nat) : Nat := (200 * num + den) / (2 * den)

/-- `lastEv?.event === 'done' && lastEv.success`. -/
def isDoneSuccess : Option WsEvent → Bool
  | some (.done true _) => true
  | _ => false

/-- The progress computation after the loop
(`const total = stageDetails.length || 1;
const overallProgress = total ? Math.round((completedCount / total) * 100) : 0`). -/
def overallFromFold (s : FoldState) : Nat :=
  if (if s.stageDetails.length = 0 then 1 else s.stageDetails.length) = 0 then 0
  else
    jsRound s.completedCount
      (if s.stageDetails.length = 0 then 1 else s.stageDetails.length)

/-- `stagesFromWsEvents` (MonitorProgress.tsx:11-89): the Mode A live
reduction.  The source's early `return { ..., overallProgress: 100, ... }`
on a trailing successful `done` is written as a conditional on the same
three fields. -/
def stagesFromWsEvents (events : List WsEvent) (runOrder : List String)
    (clock : Nat → String) : ReconciledView :=
  let s := foldEvents events runOrder clock
  { stages := s.stageDetails
    overallProgress := if isDoneSuccess events.getLast? then 100 else overallFromFold s
    logs := s.logs }

/-- `n || 1` for the stage count equals `max n 1`. -/
theorem orOne_eq_max (n : Nat) : (if n = 0 then 1 else n) = max n 1 := by
  cases n with
  | zero => rfl
  | succ m => simp [Nat.max_eq_left (Nat.succ_le_succ (Nat.zero_le m))]

theorem max_one_ne_zero (n : Nat) : max n 1 ≠ 0 := by
  have h := Nat.le_max_right n 1
  omega

/-- C1: in Mode A, the derived overall progress is
`round(100 * completedCount / max(stageCount, 1))`, except that a log whose
last event is a successful `done` forces exactly 100; in particular two
successful `stage_end` events followed by `done{success:true}` over a
2-stage order yield exactly 100. -/
theorem c1_overall_progress_formula :
    (∀ (events : List WsEvent) (runOrder : List String) (clock : Nat → String),
      (stagesFromWsEvents events runOrder clock).overallProgress =
        if isDoneSuccess events.getLast? then 100
        else
          jsRound (foldEvents events runOrder clock).completedCount
            (max (foldEvents events runOrder clock).stageDetails.length 1)) ∧
    (stagesFromWsEvents
        [.stage_end "a" true none, .stage_end "b" true none, .done true none]
        ["a", "b"] (fun _ => "00:00:00")).overallProgress = 100 := by
  constructor
  · intro events runOrder clock
    show (if isDoneSuccess events.getLast? then 100
        else overallFromFold (foldEvents events runOrder clock)) = _
    unfold overallFromFold
    rw [orOne_eq_max]
    simp [max_one_ne_zero]
  · rfl

/-- The loop body changes `orderedStages`, `stageDetails` and
`completedCount` independently of the wall-clock reading and of the log
transcript accumulated so far: the timestamp only enters the appended log
line. -/
theorem applyEvent_clock_irrel (runOrder : List String) (ts1 ts2 : String)
    (s1 s2 : FoldState) (ev : WsEvent)
    (ho : s1.orderedStages = s2.orderedStages)
    (hd : s1.stageDetails = s2.stageDetails)
    (hc : s1.completedCount = s2.completedCount) :
    (applyEvent runOrder ts1 s1 ev).orderedStages =
        (applyEvent runOrder ts2 s2 ev).orderedStages ∧
      (applyEvent runOrder ts1 s1 ev).stageDetails =
        (applyEvent runOrder ts2 s2 ev).stageDetails ∧
      (applyEvent runOrder ts1 s1 ev).completedCount =
        (applyEvent runOrder ts2 s2 ev).completedCount := by
  cases ev with
  | run_start r => exact ⟨ho, hd, hc⟩
  | pipeline_start st => exact ⟨rfl, rfl, hc⟩
  | log a b c => exact ⟨ho, hd, hc⟩
  | done a b => exact ⟨ho, hd, hc⟩
  | error m => exact ⟨ho, hd, hc⟩
  | stage_start stage =>
      refine ⟨?_, ?_, ?_⟩ <;>
        · simp only [applyEvent, ho, hd, hc]
          split <;> first | rfl | assumption
  | stage_end stage success err =>
      refine ⟨?_, ?_, ?_⟩ <;>
        · simp only [applyEvent, ho, hd, hc]
          split <;> first | rfl | assumption

/-- Clock-irrelevance for the whole loop, threading the three non-log
components through `foldEventsAux`. -/
theorem foldEventsAux_clock_irrel (runOrder : List String)
    (c1 c2 : Nat → String) :
    ∀ (events : List WsEvent) (i j : Nat) (s1 s2 : FoldState),
      s1.orderedStages = s2.orderedStages →
      s1.stageDetails = s2.stageDetails →
      s1.completedCount = s2.completedCount →
      (foldEventsAux runOrder c1 i s1 events).orderedStages =
          (foldEventsAux runOrder c2 j s2 events).orderedStages ∧
        (foldEventsAux runOrder c1 i s1 events).stageDetails =
          (foldEventsAux runOrder c2 j s2 events).stageDetails ∧
        (foldEventsAux runOrder c1 i s1 events).completedCount =
          (foldEventsAux runOrder c2 j s2 events).completedCount
  | [], _, _, _, _, ho, hd, hc => ⟨ho, hd, hc⟩
  | ev :: rest, i, j, s1, s2, ho, hd, hc => by
      obtain ⟨ho', hd', hc'⟩ :=
        applyEvent_clock_irrel runOrder (c1 i) (c2 j) s1 s2 ev ho hd hc
      exact foldEventsAux_clock_irrel runOrder c1 c2 rest (i + 1) (j + 1) _ _ ho' hd' hc'

/-- C2 counterexample: the log transcript embeds the wall-clock time at
which the fold processes each event (`new Date()` inside the loop), so
re-running the fold over the same events and stage order at a different
time yields a different `ReconciledView` — its log lines differ. -/
theorem c2_counterexample :
    stagesFromWsEvents [.run_start "r1"] ["graph_traverser"]
        (fun _ => "00:00:00") ≠
      stagesFromWsEvents [.run_start "r1"] ["graph_traverser"]
        (fun _ => "00:00:01") := by
  decide

/-- C2 (amended): re-running the Mode A fold over the same event prefix and
the same initial stage order always reproduces the same StageDetail list
and the same overall progress (no hidden mutable carry-over), and the log
transcript is also identical whenever the wall-clock readings of the two
runs coincide; the transcript alone can differ between re-runs because each
log line embeds the fold-time clock reading. -/
theorem c2_fold_deterministic (events : List WsEvent) (runOrder : List String)
    (clock1 clock2 : Nat → String) :
    (stagesFromWsEvents events runOrder clock1).stages =
        (stagesFromWsEvents events runOrder clock2).stages ∧
      (stagesFromWsEvents events runOrder clock1).overallProgress =
        (stagesFromWsEvents events runOrder clock2).overallProgress ∧
      (clock1 = clock2 →
        stagesFromWsEvents events runOrder clock1 =
          stagesFromWsEvents events runOrder clock2) := by
  obtain ⟨ho, hd, hc⟩ := foldEventsAux_clock_irrel runOrder clock1 clock2
    events 0 0 (initFoldState runOrder) (initFoldState runOrder) rfl rfl rfl
  refine ⟨hd, ?_, ?_⟩
  · show (if isDoneSuccess events.getLast? then 100
        else overallFromFold (foldEvents events runOrder clock1)) =
      (if isDoneSuccess events.getLast? then 100
        else overallFromFold (foldEvents events runOrder clock2))
    unfold overallFromFold
    rw [show (foldEvents events runOrder clock1).stageDetails =
          (foldEvents events runOrder clock2).stageDetails from hd,
        show (foldEvents events runOrder clock1).completedCount =
          (foldEvents events runOrder clock2).completedCount from hc]
  · intro h
    subst h
    rfl

/-- C2 witness: the deterministic-replay theorem applied at one concrete
event list with coincident clocks. -/
theorem c2_fold_deterministic_witness :
    stagesFromWsEvents [.run_start "r1"] ["graph_traverser"]
        (fun _ => "00:00:00") =
      stagesFromWsEvents [.run_start "r1"] ["graph_traverser"]
        (fun _ => "00:00:00") :=
  (c2_fold_deterministic [.run_start "r1"] ["graph_traverser"]
    (fun _ => "00:00:00") (fun _ => "00:00:00")).2.2 rfl

/-- Appending events continues the loop from the state (and iteration index)
reached on the shorter log. -/
theorem foldEventsAux_append (runOrder : List String) (clock : Nat → String) :
    ∀ (l1 l2 : List WsEvent) (i : Nat) (s : FoldState),
      foldEventsAux runOrder clock i s (l1 ++ l2) =
        foldEventsAux runOrder clock (i + l1.length)
          (foldEventsAux runOrder clock i s l1) l2
  | [], l2, i, s => by simp [foldEventsAux]
  | ev :: rest, l2, i, s => by
      have h : i + (ev :: rest).length = i + 1 + rest.length := by
        simp [List.length_cons]; omega
      show foldEventsAux runOrder clock (i + 1)
          (applyEvent runOrder (clock i) s ev) (rest ++ l2) =
        foldEventsAux runOrder clock (i + (ev :: rest).length)
          (foldEventsAux runOrder clock (i + 1)
            (applyEvent runOrder (clock i) s ev) rest) l2
      rw [foldEventsAux_append runOrder clock rest l2 (i + 1), h]

/-- One-event extension of the fold. -/
theorem foldEvents_snoc (events : List WsEvent) (e : WsEvent)
    (runOrder : List String) (clock : Nat → String) :
    foldEvents (events ++ [e]) runOrder clock =
      applyEvent runOrder (clock events.length)
        (foldEvents events runOrder clock) e := by
  unfold foldEvents
  rw [foldEventsAux_append]
  simp [foldEventsAux]

/-- Reading back an `updateAt`-modified list. -/
theorem updateAt_getElem {α : Type} :
    ∀ (l : List α) (i j : Nat) (f : α → α),
      (updateAt l i f)[j]? = if j = i then (l[j]?).map f else l[j]?
  | [], i, j, f => by simp [updateAt]
  | x :: xs, 0, 0, f => by simp [updateAt]
  | x :: xs, 0, j + 1, f => by simp [updateAt]
  | x :: xs, i + 1, 0, f => by simp [updateAt]
  | x :: xs, i + 1, j + 1, f => by
      simp [updateAt, updateAt_getElem xs i j f]

/-- Rank of a status along the lifecycle order
`pending → running → {completed|failed}`. -/
def statusRank : StageStatus → Nat
  | .pending => 0
  | .running => 1
  | .completed => 2
  | .failed => 2

/-- A backward move in the sense of the lifecycle claim: from `completed` or
`failed` back to `running` or `pending`, or from `running` back to
`pending`. -/
def backward (a b : StageStatus) : Bool := statusRank b < statusRank a

/-- Backward move between optional statuses (absent entries never move). -/
def optBackward : Option StageStatus → Option StageStatus → Bool
  | some a, some b => backward a b
  | _, _ => false

/-- Status of the `i`-th stage of a reconciled view. -/
def statusAt (v : ReconciledView) (i : Nat) : Option StageStatus :=
  (v.stages[i]?).map StageDetail.status

def isPipelineStart : WsEvent → Bool
  | .pipeline_start _ => true
  | _ => false

def isStageStart : WsEvent → Bool
  | .stage_start _ => true
  | _ => false

theorem optBackward_self (o : Option StageStatus) : optBackward o o = false := by
  cases o with
  | none => rfl
  | some a => cases a <;> rfl

/-- A `stage_end` always lands on a terminal status, and no move into a
terminal status is backward. -/
theorem backward_terminal (a : StageStatus) (success : Bool) :
    backward a (if success then StageStatus.completed else StageStatus.failed) = false := by
  cases a <;> cases success <;> rfl

theorem statusAt_stagesFromWsEvents (events : List WsEvent)
    (runOrder : List String) (clock : Nat → String) (i : Nat) :
    statusAt (stagesFromWsEvents events runOrder clock) i =
      ((foldEvents events runOrder clock).stageDetails[i]?).map StageDetail.status := rfl

/-- C3 counterexample: over the 1-stage order `["a"]`, after
`pipeline_start{stages:["a"]}` and a successful `stage_end{stage:"a"}` the
stage is `completed`; extending the log with the single further event
`stage_start{stage:"a"}` — which does not begin a new run — moves that
stage back to `running`, a backward transition, so statuses do not only
move forward. -/
theorem c3_counterexample :
    statusAt (stagesFromWsEvents
        [.pipeline_start (some ["a"]), .stage_end "a" true none]
        ["a"] (fun _ => "00:00:00")) 0 = some .completed ∧
      statusAt (stagesFromWsEvents
        [.pipeline_start (some ["a"]), .stage_end "a" true none,
          .stage_start "a"]
        ["a"] (fun _ => "00:00:00")) 0 = some .running ∧
      backward .completed .running = true := by
  refine ⟨by decide, by decide, rfl⟩

/-- C3 (amended): extending a Mode A event log by one event never moves any
stage's status backward (completed/failed back to running/pending, or
running back to pending) — except that a `pipeline_start` resets every
entry to `pending` (the new-run reset the claim already allows) and a
`stage_start` sets its named stage to `running` even when that stage was
already terminal (the reversion exhibited by the counterexample). -/
theorem c3_no_backward_step (events : List WsEvent) (e : WsEvent)
    (runOrder : List String) (clock : Nat → String) (i : Nat)
    (hps : isPipelineStart e = false) (hss : isStageStart e = false) :
    optBackward
      (statusAt (stagesFromWsEvents events runOrder clock) i)
      (statusAt (stagesFromWsEvents (events ++ [e]) runOrder clock) i) = false := by
  rw [statusAt_stagesFromWsEvents, statusAt_stagesFromWsEvents, foldEvents_snoc]
  cases e with
  | pipeline_start st => simp [isPipelineStart] at hps
  | stage_start st => simp [isStageStart] at hss
  | run_start r => exact optBackward_self _
  | log a b c => exact optBackward_self _
  | done a b => exact optBackward_self _
  | error m => exact optBackward_self _
  | stage_end stage success err =>
      simp only [applyEvent]
      split
      case isTrue h =>
        rw [updateAt_getElem]
        by_cases hij :
            i = List.indexOf stage (foldEvents events runOrder clock).orderedStages
        · rw [if_pos hij]
          cases hgi : (foldEvents events runOrder clock).stageDetails[i]? with
          | none => rfl
          | some d => exact backward_terminal d.status success
        · rw [if_neg hij]
          exact optBackward_self _
      case isFalse h => exact optBackward_self _

/-- C3 witness: the amended theorem applied to a concrete log extended by a
concrete `stage_end` event. -/
theorem c3_no_backward_step_witness :
    optBackward
      (statusAt (stagesFromWsEvents [.pipeline_start (some ["a"])] ["a"]
        (fun _ => "00:00:00")) 0)
      (statusAt (stagesFromWsEvents
        ([.pipeline_start (some ["a"])] ++ [.stage_end "a" true none]) ["a"]
        (fun _ => "00:00:00")) 0) = false :=
  c3_no_backward_step [.pipeline_start (some ["a"])] (.stage_end "a" true none)
    ["a"] (fun _ => "00:00:00") 0 rfl rfl

/-- C4: a `stage_start` or `stage_end` event naming a stage absent from the
current stage order (the order held by the fold state after the events so
far) leaves every `StageDetail` entry and the completed-stage counter
unchanged, but still appends exactly one log line to the transcript. -/
theorem c4_unknown_stage_frame (events : List WsEvent) (e : WsEvent)
    (runOrder : List String) (clock : Nat → String) (s : String)
    (habs : s ∉ (foldEvents events runOrder clock).orderedStages)
    (hshape : e = .stage_start s ∨ ∃ b err, e = .stage_end s b err) :
    (stagesFromWsEvents (events ++ [e]) runOrder clock).stages =
        (stagesFromWsEvents events runOrder clock).stages ∧
      (foldEvents (events ++ [e]) runOrder clock).completedCount =
        (foldEvents events runOrder clock).completedCount ∧
      ∃ line, (stagesFromWsEvents (events ++ [e]) runOrder clock).logs =
        (stagesFromWsEvents events runOrder clock).logs ++ [line] := by
  have hidx : List.indexOf s (foldEvents events runOrder clock).orderedStages =
      (foldEvents events runOrder clock).orderedStages.length :=
    List.indexOf_eq_length.mpr habs
  have hcond : ¬(List.indexOf s (foldEvents events runOrder clock).orderedStages <
        (foldEvents events runOrder clock).orderedStages.length ∧
      List.indexOf s (foldEvents events runOrder clock).orderedStages <
        (foldEvents events runOrder clock).stageDetails.length) := by
    rw [hidx]
    exact fun hcontra => Nat.lt_irrefl _ hcontra.1
  rcases hshape with h | ⟨b, err, h⟩ <;> subst h
  · refine ⟨?_, ?_, ?_⟩
    · show (foldEvents (events ++ [.stage_start s]) runOrder clock).stageDetails =
        (foldEvents events runOrder clock).stageDetails
      rw [foldEvents_snoc]
      simp only [applyEvent]
      rw [if_neg hcond]
    · rw [foldEvents_snoc]
      simp only [applyEvent]
      rw [if_neg hcond]
    · refine ⟨"[" ++ clock events.length ++ "] [INFO] Stage started: " ++ s, ?_⟩
      show (foldEvents (events ++ [.stage_start s]) runOrder clock).logs = _
      rw [foldEvents_snoc]
      simp only [applyEvent]
      rw [if_neg hcond]
      rfl
  · refine ⟨?_, ?_, ?_⟩
    · show (foldEvents (events ++ [.stage_end s b err]) runOrder clock).stageDetails =
        (foldEvents events runOrder clock).stageDetails
      rw [foldEvents_snoc]
      simp only [applyEvent]
      rw [if_neg hcond]
    · rw [foldEvents_snoc]
      simp only [applyEvent]
      rw [if_neg hcond]
    · refine ⟨"[" ++ clock events.length ++ "] [" ++
        (if b then "INFO" else "ERROR") ++ "] Stage " ++
        (if b then "completed" else "failed") ++ ": " ++ s ++ errSuffix err, ?_⟩
      show (foldEvents (events ++ [.stage_end s b err]) runOrder clock).logs = _
      rw [foldEvents_snoc]
      simp only [applyEvent]
      rw [if_neg hcond]
      rfl

/-- C4 witness: the frame theorem applied to a concrete log and a concrete
unknown-stage event. -/
theorem c4_unknown_stage_frame_witness :
    (stagesFromWsEvents ([.run_start "r1"] ++ [.stage_start "zz"])
          ["graph_traverser"] (fun _ => "00:00:00")).stages =
        (stagesFromWsEvents [.run_start "r1"] ["graph_traverser"]
          (fun _ => "00:00:00")).stages ∧
      (foldEvents ([.run_start "r1"] ++ [.stage_start "zz"])
          ["graph_traverser"] (fun _ => "00:00:00")).completedCount =
        (foldEvents [.run_start "r1"] ["graph_traverser"]
          (fun _ => "00:00:00")).completedCount ∧
      ∃ line, (stagesFromWsEvents ([.run_start "r1"] ++ [.stage_start "zz"])
          ["graph_traverser"] (fun _ => "00:00:00")).logs =
        (stagesFromWsEvents [.run_start "r1"] ["graph_traverser"]
          (fun _ => "00:00:00")).logs ++ [line] :=
  c4_unknown_stage_frame [.run_start "r1"] (.stage_start "zz")
    ["graph_traverser"] (fun _ => "00:00:00") "zz" (by decide) (Or.inl rfl)

/-- Snapshot shape returned by `getRunStatus`
(interface `RunResultResponse` in client.ts); the opaque `context` record
is omitted (no modelled code reads it). -/
structure RunResultResponse where
  run_id : String
  status : String
  success : Bool
  results : Option (List StageResult) := none
  error : Option String := none
  stages : Option (List String) := none
  current_stage : Option String := none
deriving DecidableEq, Repr

/-- `formatPhase` (MonitorProgress.tsx:98-110); an empty `current_stage`
string is falsy in JavaScript and a `labels.length` of 0 suppresses the
parenthesised stage sequence. -/
def formatPhase (res : RunResultResponse) : String :=
  let labels := (res.stages.getD []).map stageLabel
  let phaseName : Option String :=
    match res.current_stage with
    | some c => if c = "" then none else some (stageLabel c)
    | none => none
  if res.status = "running" then
    match phaseName with
    | some p =>
        "Phase: Running — " ++ p ++
          (if labels.length = 0 then "" else " (" ++ joinSep " → " labels ++ ")")
    | none =>
        "Phase: Running" ++
          (if labels.length = 0 then "" else " — " ++ joinSep " → " labels)
  else if res.status = "completed" then "Phase: Completed"
  else if res.status = "failed" then "Phase: Failed"
  else "Status: " ++ res.status

/-- The poll summary `logMsg` (MonitorProgress.tsx:162-168); the source
writes the `running` and non-`running` branches separately (with the same
template), mirrored here. -/
def pollLogMsg (res : RunResultResponse) : String :=
  let completed := ((res.results.getD []).filter (·.success)).length
  let total := max (res.results.getD []).length
    (max ((res.stages.map List.length).getD 0) 1)
  if res.status = "running" then
    "Poll: status=running — " ++ formatPhase res ++ " (" ++
      toString completed ++ "/" ++ toString total ++ " stages)"
  else
    "Poll: status=" ++ res.status ++ " — " ++ formatPhase res ++ " (" ++
      toString completed ++ "/" ++ toString total ++ " stages)"

/-- Terminal stage-list rebuild (MonitorProgress.tsx:180-187): one
`StageDetail` per result entry, named 1:1 by position from the run order;
an index beyond the run order yields the JavaScript `undefined` name,
rendered here as a literal. -/
def rebuildStages (runOrder : List String) (results : List StageResult) :
    List StageDetail :=
  results.enum.map (fun p =>
    { name := ((runOrder[p.1]?).map stageLabel).getD "undefined"
      status := if p.2.success then StageStatus.completed else StageStatus.failed
      progress := if p.2.success then 100 else 0
      error := p.2.error })

/-- `res.results?.length ?? 1` — the denominator of the failure-path
success-ratio division (MonitorProgress.tsx:192): the fallback 1 applies
only when `results` is absent, not when it is an empty list. -/
def failedDenominator (res : RunResultResponse) : Nat :=
  match res.results with
  | none => 1
  | some l => l.length

/-- Overall progress assigned on a terminal poll (MonitorProgress.tsx:188-194):
100 on `completed`, otherwise `Math.round` of the success ratio; a zero
denominator makes the JavaScript expression `NaN`, modelled as `none`. -/
def terminalProgress (res : RunResultResponse) : Option Nat :=
  if res.status = "completed" then some 100
  else if failedDenominator res = 0 then none
  else some (jsRound ((res.results.getD []).filter (·.success)).length
    (failedDenominator res))

/-- Mode B component state touched by one interval tick: `lastLogMsgRef`,
the `logs`, `stages` and `overallProgress` state, whether the interval has
been cleared, and whether `onDone` has been signalled. -/
structure ModeBState where
  lastLogMsg : Option String
  logs : List String
  stages : List StageDetail
  overallProgress : Option Nat
  pollActive : Bool
  doneSignaled : Bool
deriving DecidableEq, Repr

/-- The dedup append of the poll summary (MonitorProgress.tsx:169-172):
append a timestamped line only when the text differs from the previously
logged poll summary. -/
def recordPoll (ts : String) (st : ModeBState) (msg : String) : ModeBState :=
  if some msg = st.lastLogMsg then st
  else { st with lastLogMsg := some msg, logs := st.logs ++ [ts ++ " " ++ msg] }

/-- One successful tick of the polling interval (MonitorProgress.tsx:159-206,
the body run when `getRunStatus` resolves).  `ts` is the timestamp prefix
`addLog` reads at this tick. -/
def pollStep (runOrder : List String) (ts : String) (st : ModeBState)
    (res : RunResultResponse) : ModeBState :=
  let st1 := recordPoll ts st (pollLogMsg res)
  if res.status = "running" then st1
  else if res.status = "completed" ∨ res.status = "failed" then
    { st1 with
      pollActive := false
      stages := rebuildStages runOrder (res.results.getD [])
      overallProgress := terminalProgress res
      logs := st1.logs ++
        [ts ++ " " ++ (if res.status = "completed" then "Pipeline completed."
          else "Pipeline failed: " ++ (res.error.getD "Unknown"))]
      doneSignaled := true }
  else st1

theorem recordPoll_lastLogMsg (ts : String) (st : ModeBState) (msg : String) :
    (recordPoll ts st msg).lastLogMsg = some msg := by
  unfold recordPoll
  split
  case isTrue h => exact h.symm
  case isFalse h => rfl

theorem recordPoll_of_eq (ts : String) (st : ModeBState) (msg : String)
    (h : some msg = st.lastLogMsg) : recordPoll ts st msg = st := by
  unfold recordPoll
  rw [if_pos h]

theorem recordPoll_of_ne (ts : String) (st : ModeBState) (msg : String)
    (h : ¬ some msg = st.lastLogMsg) :
    recordPoll ts st msg =
      { st with lastLogMsg := some msg, logs := st.logs ++ [ts ++ " " ++ msg] } := by
  unfold recordPoll
  rw [if_neg h]

/-- Any poll's transcript is the dedup append's transcript, possibly
followed by the terminal line. -/
theorem pollStep_logs_extends (runOrder : List String) (ts : String)
    (st : ModeBState) (res : RunResultResponse) :
    ∃ rest, (pollStep runOrder ts st res).logs =
      (recordPoll ts st (pollLogMsg res)).logs ++ rest := by
  unfold pollStep
  split
  · exact ⟨[], by simp⟩
  · split
    · exact ⟨_, rfl⟩
    · exact ⟨[], by simp⟩

/-- A non-terminal poll is exactly the dedup append. -/
theorem pollStep_nonterminal (runOrder : List String) (ts : String)
    (st : ModeBState) (res : RunResultResponse)
    (hc : res.status ≠ "completed") (hf : res.status ≠ "failed") :
    pollStep runOrder ts st res = recordPoll ts st (pollLogMsg res) := by
  unfold pollStep
  by_cases hr : res.status = "running"
  · rw [if_pos hr]
  · rw [if_neg hr, if_neg (by simp [hc, hf])]

/-- After any non-terminal poll the previously-logged-summary reference
holds that poll's summary. -/
theorem pollStep_lastLogMsg (runOrder : List String) (ts : String)
    (st : ModeBState) (res : RunResultResponse)
    (hc : res.status ≠ "completed") (hf : res.status ≠ "failed") :
    (pollStep runOrder ts st res).lastLogMsg = some (pollLogMsg res) := by
  rw [pollStep_nonterminal runOrder ts st res hc hf]
  exact recordPoll_lastLogMsg ts st (pollLogMsg res)

/-- C5: Mode B poll dedup.  For two consecutive polls (the first poll is
non-terminal — a terminal poll stops the interval, so no next poll exists):
when the second poll's summary equals the immediately preceding logged poll
summary, no log line is appended by the second poll; when it differs, a new
summary line is always appended (a terminal second poll may then append its
final terminal line after it); and starting from a state whose last logged
summary differs from the first poll's, an equal-summary pair appends
exactly one line in total. -/
theorem c5_poll_dedup (runOrder : List String) (ts1 ts2 : String)
    (st : ModeBState) (res1 res2 : RunResultResponse)
    (h1c : res1.status ≠ "completed") (h1f : res1.status ≠ "failed") :
    ((res2.status ≠ "completed" ∧ res2.status ≠ "failed") →
        pollLogMsg res2 = pollLogMsg res1 →
        (pollStep runOrder ts2 (pollStep runOrder ts1 st res1) res2).logs =
          (pollStep runOrder ts1 st res1).logs) ∧
      (pollLogMsg res2 ≠ pollLogMsg res1 →
        ∃ rest,
          (pollStep runOrder ts2 (pollStep runOrder ts1 st res1) res2).logs =
            ((pollStep runOrder ts1 st res1).logs ++
              [ts2 ++ " " ++ pollLogMsg res2]) ++ rest) ∧
      (¬ some (pollLogMsg res1) = st.lastLogMsg →
        pollLogMsg res2 = pollLogMsg res1 →
        res2.status ≠ "completed" → res2.status ≠ "failed" →
        (pollStep runOrder ts2 (pollStep runOrder ts1 st res1) res2).logs =
          st.logs ++ [ts1 ++ " " ++ pollLogMsg res1]) := by
  have hlast : (pollStep runOrder ts1 st res1).lastLogMsg =
      some (pollLogMsg res1) := pollStep_lastLogMsg runOrder ts1 st res1 h1c h1f
  refine ⟨?_, ?_, ?_⟩
  · rintro ⟨h2c, h2f⟩ heq
    rw [pollStep_nonterminal runOrder ts2 _ res2 h2c h2f,
      recordPoll_of_eq _ _ _ (by rw [hlast, heq])]
  · intro hne
    have hmsg : ¬ some (pollLogMsg res2) =
        (pollStep runOrder ts1 st res1).lastLogMsg := by
      rw [hlast]
      simp [hne]
    obtain ⟨rest, hr⟩ :=
      pollStep_logs_extends runOrder ts2 (pollStep runOrder ts1 st res1) res2
    refine ⟨rest, ?_⟩
    rw [hr, recordPoll_of_ne _ _ _ hmsg]
  · intro hne heq h2c h2f
    rw [pollStep_nonterminal runOrder ts2 _ res2 h2c h2f,
      recordPoll_of_eq _ _ _ (by rw [hlast, heq]),
      pollStep_nonterminal runOrder ts1 st res1 h1c h1f,
      recordPoll_of_ne _ _ _ hne]

/-- C5 witness: the dedup theorem applied to two identical consecutive
running polls starting from the initial Mode B state — exactly one line is
appended for the pair. -/
theorem c5_poll_dedup_witness :
    (pollStep [] "00:00:02"
        (pollStep [] "00:00:01"
          { lastLogMsg := none, logs := [], stages := [],
            overallProgress := some 0, pollActive := true, doneSignaled := false
          }
          { run_id := "r1", status := "running", success := false })
        { run_id := "r1", status := "running", success := false }).logs =
      [] ++ ["00:00:01" ++ " " ++
        pollLogMsg { run_id := "r1", status := "running", success := false }] :=
  (c5_poll_dedup [] "00:00:01" "00:00:02"
      { lastLogMsg := none, logs := [], stages := [],
        overallProgress := some 0, pollActive := true, doneSignaled := false
      }
      { run_id := "r1", status := "running", success := false }
      { run_id := "r1", status := "running", success := false }
      (by decide) (by decide)).2.2 (by simp) rfl (by decide) (by decide)

/-- The exact success-ratio rounding never exceeds 100 when at most every
entry succeeded. -/
theorem jsRound_le_100 (num den : Nat) (h : 0 < den) (hle : num ≤ den) :
    jsRound num den ≤ 100 := by
  unfold jsRound
  have h1 : 200 * num + den ≤ 201 * den := by omega
  calc (200 * num + den) / (2 * den)
      ≤ 201 * den / (2 * den) := Nat.div_le_div_right h1
    _ ≤ 100 := by
      rw [Nat.div_le_iff_le_mul_add_pred (by omega)]
      omega

/-- C10 counterexample: a terminal `failed` snapshot whose `results` list is
present but empty gives the success-ratio division a zero denominator
(`res.results?.length ?? 1` is `0`, not `1`, for an empty list), so the
computed overall progress is `NaN` (modelled `none`), not an integer in
[0,100]. -/
theorem c10_counterexample :
    failedDenominator
        { run_id := "r1", status := "failed", success := false,
          results := some [] } = 0 ∧
      terminalProgress
        { run_id := "r1", status := "failed", success := false,
          results := some [] } = none := by
  exact ⟨by decide, by decide⟩

/-- C10 (amended): for every terminal `failed` snapshot whose results list
is absent or nonempty, the success-ratio denominator is positive and the
overall progress is defined and an integer in [0,100]; the denominator is
zero exactly in the remaining case of a present-but-empty results list
(the counterexample). -/
theorem c10_failed_progress_bounds (res : RunResultResponse)
    (hst : res.status = "failed")
    (hres : res.results = none ∨ ∃ l, res.results = some l ∧ l ≠ []) :
    0 < failedDenominator res ∧
      ∃ p, terminalProgress res = some p ∧ p ≤ 100 := by
  have hden : 0 < failedDenominator res := by
    rcases hres with h | ⟨l, hl, hne⟩
    · simp [failedDenominator, h]
    · simp only [failedDenominator, hl]
      exact List.length_pos.mpr hne
  refine ⟨hden, ?_⟩
  have hnc : ¬ res.status = "completed" := by rw [hst]; decide
  refine ⟨jsRound ((res.results.getD []).filter (·.success)).length
    (failedDenominator res), ?_, ?_⟩
  · unfold terminalProgress
    rw [if_neg hnc, if_neg (by omega)]
  · apply jsRound_le_100 _ _ hden
    rcases hres with h | ⟨l, hl, hne⟩
    · simp [failedDenominator, h]
    · simp only [failedDenominator, hl, Option.getD_some]
      exact List.length_filter_le _ l

/-- C10 witness: the bounds theorem applied to a concrete failed snapshot
with one (failed) stage result. -/
theorem c10_failed_progress_bounds_witness :
    0 < failedDenominator
        { run_id := "r1", status := "failed", success := false,
          results := some [{ success := false }] } ∧
      ∃ p, terminalProgress
        { run_id := "r1", status := "failed", success := false,
          results := some [{ success := false }] } = some p ∧
        p ≤ 100 :=
  c10_failed_progress_bounds
    { run_id := "r1", status := "failed", success := false,
      results := some [{ success := false }] }
    rfl (Or.inr ⟨[{ success := false }], rfl, by decide⟩)

/-- Parse result of one inbound live-channel message: a lifecycle event, or
a malformed payload carrying the parse-failure message. -/
inductive WsPayload where
  | parsed (ev : WsEvent)
  | malformed (errMsg : String)
deriving DecidableEq, Repr

/-- External input hitting the handlers installed by
`runPipelineViaWebSocket` (client.ts:113-183): an inbound message
(`ws.onmessage`), a call of the returned close function, a transport error
(`ws.onerror`), or the socket closing (`ws.onclose`). -/
inductive WsIncoming where
  | msg (payload : WsPayload)
  | closeCall
  | sockError
  | sockClose
deriving DecidableEq, Repr

/-- One observed callback invocation. -/
inductive CallbackCall where
  | onRunId (runId : String)
  | onEvent (ev : WsEvent)
  | onDone (result : RunResultResponse)
  | onError (message : String)
deriving DecidableEq, Repr

/-- Handler-captured state of one live-channel session: the `closed` flag
and the captured `runId` variable. -/
structure WsSession where
  closed : Bool
  runId : String
deriving DecidableEq, Repr

def initSession : WsSession := { closed := false, runId := "" }

/-- One input processed by the session's handlers, returning the new state
and the callback invocations made, in order (client.ts:122-180):
`onmessage` returns early when closed, fires `onEvent` for every parsed
event, then `onRunId` on `run_start`, `onDone` (translated to the polled
result shape) then close on `done`, `onError` then close on an `error`
event or a malformed payload; the close call only sets the flag;
`onerror` fires `onError` unless closed; `onclose` only closes. -/
def wsStep (s : WsSession) : WsIncoming → WsSession × List CallbackCall
  | .msg p =>
      if s.closed then (s, [])
      else
        match p with
        | .malformed errMsg => ({ s with closed := true }, [.onError errMsg])
        | .parsed ev =>
            match ev with
            | .run_start rid =>
                ({ s with runId := rid }, [.onEvent ev, .onRunId rid])
            | .done success results =>
                ({ s with closed := true },
                  [.onEvent ev,
                    .onDone { run_id := s.runId,
                              status := if success then "completed" else "failed",
                              success := success, results := results }])
            | .error m => ({ s with closed := true }, [.onEvent ev, .onError m])
            | _ => (s, [.onEvent ev])
  | .closeCall => ({ s with closed := true }, [])
  | .sockError =>
      if s.closed then (s, [])
      else ({ s with closed := true }, [.onError "WebSocket error"])
  | .sockClose => ({ s with closed := true }, [])

/-- Process a list of inputs from a session state, accumulating the
callback invocations in order. -/
def runSessionFrom (s : WsSession) : List WsIncoming → WsSession × List CallbackCall
  | [] => (s, [])
  | i :: rest =>
      ((runSessionFrom (wsStep s i).1 rest).1,
        (wsStep s i).2 ++ (runSessionFrom (wsStep s i).1 rest).2)

def isRunIdCall : CallbackCall → Bool
  | .onRunId _ => true
  | _ => false

/-- Number of `onRunId` invocations among a list of callback calls. -/
def countOnRunId (calls : List CallbackCall) : Nat :=
  (calls.filter isRunIdCall).length

/-- Number of `run_start` events delivered before the first closing input
(a `done` or `error` event, a malformed payload, a close call, a transport
error, or the socket closing). -/
def runStartsWhileOpen : List WsIncoming → Nat
  | [] => 0
  | .msg (.parsed (.run_start _)) :: rest => 1 + runStartsWhileOpen rest
  | .msg (.parsed (.pipeline_start _)) :: rest => runStartsWhileOpen rest
  | .msg (.parsed (.stage_start _)) :: rest => runStartsWhileOpen rest
  | .msg (.parsed (.stage_end _ _ _)) :: rest => runStartsWhileOpen rest
  | .msg (.parsed (.log _ _ _)) :: rest => runStartsWhileOpen rest
  | _ :: _ => 0

/-- A closed session ignores every input: no callbacks, still closed. -/
theorem wsStep_closed (s : WsSession) (i : WsIncoming) (h : s.closed = true) :
    (wsStep s i).2 = [] ∧ (wsStep s i).1.closed = true := by
  cases i with
  | msg p => simp [wsStep, h]
  | closeCall => simp [wsStep]
  | sockError => simp [wsStep, h]
  | sockClose => simp [wsStep]

/-- A closed session makes no callback invocation over any further input
sequence. -/
theorem runSessionFrom_closed (s : WsSession) (h : s.closed = true) :
    ∀ inputs : List WsIncoming, (runSessionFrom s inputs).2 = []
  | [] => rfl
  | i :: rest => by
      obtain ⟨hc, hcl⟩ := wsStep_closed s i h
      simp only [runSessionFrom, hc, List.nil_append]
      exact runSessionFrom_closed (wsStep s i).1 hcl rest

/-- While the channel is open, `onRunId` fires once per `run_start`
delivered before the first closing input. -/
theorem countOnRunId_runSessionFrom (s : WsSession) (inputs : List WsIncoming)
    (h : s.closed = false) :
    countOnRunId (runSessionFrom s inputs).2 = runStartsWhileOpen inputs := by
  induction inputs generalizing s with
  | nil => rfl
  | cons i rest ih =>
      cases i with
      | closeCall =>
          simp only [runSessionFrom, wsStep]
          rw [runSessionFrom_closed _ rfl rest]
          rfl
      | sockClose =>
          simp only [runSessionFrom, wsStep]
          rw [runSessionFrom_closed _ rfl rest]
          rfl
      | sockError =>
          simp only [runSessionFrom, wsStep, h]
          rw [if_neg (by simp [h])]
          rw [runSessionFrom_closed _ rfl rest]
          rfl
      | msg p =>
          cases p with
          | malformed e =>
              simp only [runSessionFrom, wsStep]
              rw [if_neg (by simp [h])]
              rw [runSessionFrom_closed _ rfl rest]
              rfl
          | parsed ev =>
              cases ev with
              | run_start rid =>
                  simp only [runSessionFrom, wsStep]
                  rw [if_neg (by simp [h])]
                  have := ih { s with runId := rid } (by simpa using h)
                  simp only [countOnRunId, List.filter_append,
                    List.length_append] at this ⊢
                  simp [isRunIdCall, this, runStartsWhileOpen, Nat.add_comm]
              | pipeline_start st =>
                  simp only [runSessionFrom, wsStep]
                  rw [if_neg (by simp [h])]
                  have := ih s h
                  simp only [countOnRunId, List.filter_append,
                    List.length_append] at this ⊢
                  simp [isRunIdCall, this, runStartsWhileOpen]
              | stage_start st =>
                  simp only [runSessionFrom, wsStep]
                  rw [if_neg (by simp [h])]
                  have := ih s h
                  simp only [countOnRunId, List.filter_append,
                    List.length_append] at this ⊢
                  simp [isRunIdCall, this, runStartsWhileOpen]
              | stage_end st b err =>
                  simp only [runSessionFrom, wsStep]
                  rw [if_neg (by simp [h])]
                  have := ih s h
                  simp only [countOnRunId, List.filter_append,
                    List.length_append] at this ⊢
                  simp [isRunIdCall, this, runStartsWhileOpen]
              | log a b c =>
                  simp only [runSessionFrom, wsStep]
                  rw [if_neg (by simp [h])]
                  have := ih s h
                  simp only [countOnRunId, List.filter_append,
                    List.length_append] at this ⊢
                  simp [isRunIdCall, this, runStartsWhileOpen]
              | done b r =>
                  simp only [runSessionFrom, wsStep]
                  rw [if_neg (by simp [h])]
                  rw [runSessionFrom_closed _ rfl rest]
                  rfl
              | error m =>
                  simp only [runSessionFrom, wsStep]
                  rw [if_neg (by simp [h])]
                  rw [runSessionFrom_closed _ rfl rest]
                  rfl

/-- C6 counterexample: a session delivering two `run_start` events invokes
`onRunId` twice, not exactly once — the handler has no first-only guard. -/
theorem c6_counterexample :
    countOnRunId (runSessionFrom initSession
        [.msg (.parsed (.run_start "a")),
          .msg (.parsed (.run_start "b"))]).2 = 2 ∧
      ¬ countOnRunId (runSessionFrom initSession
        [.msg (.parsed (.run_start "a")),
          .msg (.parsed (.run_start "b"))]).2 = 1 := by
  exact ⟨by decide, by decide⟩

/-- C6 (amended): `onRunId` is invoked once per `run_start` event received
while the channel is open — exactly once when the session delivers exactly
one `run_start` before closing, but each further `run_start` triggers it
again. -/
theorem c6_run_id_per_run_start (inputs : List WsIncoming) :
    countOnRunId (runSessionFrom initSession inputs).2 =
      runStartsWhileOpen inputs :=
  countOnRunId_runSessionFrom initSession inputs rfl

/-- Any step that invokes `onDone` or `onError` leaves the channel
closed. -/
theorem wsStep_done_or_error_closes (s : WsSession) (i : WsIncoming)
    (r : RunResultResponse) (m : String)
    (h : CallbackCall.onDone r ∈ (wsStep s i).2 ∨
      CallbackCall.onError m ∈ (wsStep s i).2) :
    (wsStep s i).1.closed = true := by
  by_cases hc : s.closed = true
  · exact (wsStep_closed s i hc).2
  · replace hc : s.closed = false := by simpa using hc
    cases i with
    | closeCall => rfl
    | sockClose => rfl
    | sockError => simp [wsStep, hc]
    | msg p =>
        cases p with
        | malformed e => simp [wsStep, hc]
        | parsed ev => cases ev <;> simp_all [wsStep, hc]

/-- C7: teardown is idempotent and terminal.  The close function invokes no
callback, calling it twice is the same as calling it once (same state, no
callbacks, no error — the step function is total), once the session is
closed (as it is after `onDone` or `onError` fired, last conjunct) every
further input produces no callback invocations and keeps the session
closed. -/
theorem c7_close_idempotent (s : WsSession) (i : WsIncoming)
    (inputs : List WsIncoming) (r : RunResultResponse) (m : String) :
    (wsStep s .closeCall).2 = [] ∧
      (wsStep (wsStep s .closeCall).1 .closeCall).2 = [] ∧
      (wsStep (wsStep s .closeCall).1 .closeCall).1 = (wsStep s .closeCall).1 ∧
      (s.closed = true → (wsStep s i).2 = [] ∧ (wsStep s i).1.closed = true) ∧
      (s.closed = true → (runSessionFrom s inputs).2 = []) ∧
      ((CallbackCall.onDone r ∈ (wsStep s i).2 ∨
          CallbackCall.onError m ∈ (wsStep s i).2) →
        (wsStep s i).1.closed = true) := by
  refine ⟨rfl, rfl, rfl, ?_, ?_, ?_⟩
  · exact wsStep_closed s i
  · exact fun h => runSessionFrom_closed s h inputs
  · exact wsStep_done_or_error_closes s i r m

/-- C7 witness: the teardown theorem applied to a session already closed by
a prior `done`, fed one further inbound message. -/
theorem c7_close_idempotent_witness :
    (runSessionFrom { closed := true, runId := "r1" }
        [.msg (.parsed (.run_start "a"))]).2 = [] :=
  (c7_close_idempotent { closed := true, runId := "r1" }
      (.msg (.parsed (.run_start "a")))
      [.msg (.parsed (.run_start "a"))]
      { run_id := "", status := "", success := false } "").2.2.2.2.1 rfl

/-- `getRunStatus` non-success handling (client.ts:29-37): the thrown
message.  `status` is the numeric HTTP status code, `statusText` the
transport's status text, `detail` the parsed body's optional detail field
(a failed body parse yields no detail); an empty detail string is falsy. -/
def getRunStatusErrorMsg (status : Nat) (statusText : String)
    (detail : Option String) : String :=
  match detail with
  | some d => if d = "" then statusText else toString status ++ ": " ++ d
  | none => statusText

/-- C8 counterexample: with no detail field in the body, `getRunStatus`
fails with the transport's status text alone — the numeric status code
does not appear in the message.  (The code prepends the code when a detail
IS present, the opposite placement of the one the claim describes.) -/
theorem c8_counterexample :
    getRunStatusErrorMsg 404 "Not Found" none = "Not Found" ∧
      ¬ List.IsInfix (toString 404).data "Not Found".data := by
  exact ⟨rfl, by decide⟩

/-- C8 (amended): when the body carries a nonempty detail, the failure
message is `"<status>: <detail>"` — the numeric status code accompanies
the detail; when the body has no detail field, the message is the
transport's status text with no status code added. -/
theorem c8_error_message (status : Nat) (statusText : String) (d : String)
    (hd : d ≠ "") :
    getRunStatusErrorMsg status statusText (some d) =
        toString status ++ ": " ++ d ∧
      getRunStatusErrorMsg status statusText none = statusText := by
  constructor
  · simp only [getRunStatusErrorMsg]
    rw [if_neg hd]
  · rfl

/-- C8 witness: the message-shape theorem at the 404 example. -/
theorem c8_error_message_witness :
    getRunStatusErrorMsg 404 "Not Found" (some "not found") =
        toString 404 ++ ": " ++ "not found" ∧
      getRunStatusErrorMsg 404 "Not Found" none = "Not Found" :=
  c8_error_message 404 "Not Found" "not found" (by decide)

/-- Run-start response shape `RunResponse` (client.ts:76-80); `run_id` is
optional here because the submission handler defends against its
absence. -/
structure RunResponse where
  run_id : Option String := none
  status : String
  message : Option String := none
deriving DecidableEq, Repr

/-- Outcome of the request/response submission continuation
(ConfigurePipeline.tsx:184-195): `ran id` means `onRun(id, config)` fired,
`failed msg` means `setError(msg)` fired. -/
inductive SubmitOutcome where
  | ran (runId : String)
  | failed (errorMsg : String)
deriving DecidableEq, Repr

/-- `res.message || 'Run failed'` (the empty string is falsy). -/
def messageOrDefault (res : RunResponse) : String :=
  match res.message with
  | some m => if m = "" then "Run failed" else m
  | none => "Run failed"

/-- The `.then` continuation of `handleRun`'s request/response path
(ConfigurePipeline.tsx:184-195):
`if (res.run_id) onRun(res.run_id, config) else setError(res.message || 'Run failed')`;
an absent or empty `run_id` is falsy. -/
def handleRunResponse (res : RunResponse) : SubmitOutcome :=
  match res.run_id with
  | some id => if id = "" then .failed (messageOrDefault res) else .ran id
  | none => .failed (messageOrDefault res)

/-- C9: a transport-successful run-start response lacking a run identifier
is a submission failure: the run callback is never invoked (no `ran`
outcome) and, when the response carries a nonempty `message`, the reported
failure message is exactly that field; at
`{status:"rejected", message:"quota exceeded"}` with no `run_id` the
reported message is exactly `"quota exceeded"`. -/
theorem c9_no_run_id_failure (res : RunResponse) (msg : String)
    (hr : res.run_id = none) :
    (∀ id, handleRunResponse res ≠ .ran id) ∧
      (res.message = some msg → msg ≠ "" → handleRunResponse res = .failed msg) ∧
      handleRunResponse
        { run_id := none, status := "rejected",
          message := some "quota exceeded" } = .failed "quota exceeded" := by
  refine ⟨?_, ?_, by decide⟩
  · intro id
    simp [handleRunResponse, hr]
  · intro hm hne
    simp only [handleRunResponse, messageOrDefault, hr, hm]
    rw [if_neg hne]

/-- C9 witness: the submission-failure theorem at the quota-exceeded
example response. -/
theorem c9_no_run_id_failure_witness :
    handleRunResponse
      { run_id := none, status := "rejected",
        message := some "quota exceeded" } = .failed "quota exceeded" :=
  ((c9_no_run_id_failure
      { run_id := none, status := "rejected", message := some "quota exceeded" }
      "quota exceeded" rfl).2.1) rfl (by decide)
